import Mathlib

/-!
Verification of the vddk-builder build-trigger service.

This file shallowly embeds the core of the repository:
the upload admission path and busy-flag handling in
`pkg/registry/registry.go` (`StartServer`, `authenticateRequest`,
`resetBusy`), the build pipeline in `pkg/builder/builder.go`
(`BuildAndPushImage`, `extractTarGz`, `buildImage`, `pushImage`),
and the registry probe `CheckImageExists`.

External effects (filesystem, subprocesses, Kubernetes permission
checks) are modelled by explicit oracle inputs recording whether each
call succeeds, and the functions return records of the observable
actions they performed.
-/

namespace VddkBuilder

/-! ## Path model: Go `path/filepath` Join and Clean (unix rules)

`filepath.Join(a, b)` joins the non-empty elements with `/` and then
applies `Clean`, which lexically resolves `.` and `..` segments.  This
is the path arithmetic used by `extractTarGz` (entry targets) and the
upload handler (stored file path). -/

/-- Split a character list into `/`-separated segments. -/
def splitSegs : List Char → List Char → List String
  | acc, [] => [String.mk acc.reverse]
  | acc, c :: rest =>
    if c = '/' then String.mk acc.reverse :: splitSegs [] rest
    else splitSegs (c :: acc) rest

/-- The segment-processing loop of Go `filepath.Clean`: drop empty and
`.` segments, resolve `..` against the output stack (a leading `..` is
kept for relative paths and dropped for rooted ones). -/
def cleanSegs (rooted : Bool) : List String → List String → List String
  | stack, [] => stack.reverse
  | stack, s :: rest =>
    if s = "" ∨ s = "." then cleanSegs rooted stack rest
    else if s = ".." then
      match stack with
      | [] => if rooted then cleanSegs rooted [] rest else cleanSegs rooted [".."] rest
      | top :: stk =>
        if top = ".." then cleanSegs rooted (".." :: top :: stk) rest
        else cleanSegs rooted stk rest
    else cleanSegs rooted (s :: stack) rest

/-- Whether a path string is rooted (starts with `/`). -/
def isRooted (p : String) : Bool :=
  match p.toList with
  | '/' :: _ => true
  | _ => false

/-- Go `filepath.Clean` (unix). -/
def goClean (p : String) : String :=
  let rooted := isRooted p
  let segs := cleanSegs rooted [] (splitSegs [] p.toList)
  if segs.isEmpty then (if rooted then "/" else ".")
  else (if rooted then "/" else "") ++ String.intercalate "/" segs

/-- Go `filepath.Join` on two elements: skip empty elements, join with
`/`, then `Clean`. -/
def goJoin (a b : String) : String :=
  if a = "" then (if b = "" then "" else goClean b)
  else if b = "" then goClean a
  else goClean (a ++ "/" ++ b)

/-- `isUnder dir p` holds when `p` lies at or below directory `dir`
(lexically: equal to `dir` or extending it past a `/`). -/
def isUnder (dir p : String) : Bool :=
  p = dir || (dir ++ "/").toList.isPrefixOf p.toList

/-- Go `strings.HasPrefix`. -/
def hasPrefixStr (pre s : String) : Bool :=
  pre.toList.isPrefixOf s.toList

/-- Go `strings.TrimPrefix`. -/
def trimPrefixStr (pre s : String) : String :=
  if hasPrefixStr pre s then String.mk (s.toList.drop pre.toList.length) else s

/-! ## Configuration (`pkg/config/config.go`) -/

/-- The `Config` struct of `pkg/config/config.go`. -/
structure Config where
  ImageName : String
  CAPublicKey : String
  PrivateKey : String
  ServerPort : String
  UploadDir : String
  ImageRegistry : String
  RequireAuth : Bool

/-! ## Registry probe (`pkg/registry/registry.go`, `CheckImageExists`)

Only the URL construction is modelled; the HTTP exchange is an
external effect.  The source builds the manifest URL with
`fmt.Sprintf("https://%s/v2/%s/manifests/latest", registryURL, imageName)`. -/

/-- The manifest URL built by `CheckImageExists`. -/
def checkImageManifestURL (imageName registryURL : String) : String :=
  "https://" ++ registryURL ++ "/v2/" ++ imageName ++ "/manifests/latest"

/-- Split a character list into segments at a given separator. -/
def splitSegsOn (sep : Char) : List Char → List Char → List String
  | acc, [] => [String.mk acc.reverse]
  | acc, c :: rest =>
    if c = sep then String.mk acc.reverse :: splitSegsOn sep [] rest
    else splitSegsOn sep (c :: acc) rest

/-- Modelled from the spec: §4.5 RegistryProbe says the probe "builds a
manifest URL from the image name: if the name contains a `:` separator,
the part after it is the tag; otherwise tag defaults to `latest`".
This definition follows those words (repository part before the `:`,
tag after it) for comparison against `checkImageManifestURL`. -/
def specProbeManifestURL (imageName registryURL : String) : String :=
  let segs := splitSegsOn ':' [] imageName.toList
  match segs with
  | [repo, tag] => "https://" ++ registryURL ++ "/v2/" ++ repo ++ "/manifests/" ++ tag
  | _ => "https://" ++ registryURL ++ "/v2/" ++ imageName ++ "/manifests/latest"

/-! ## Push invocation (`pkg/builder/builder.go`, `pushImage`)

`pushImage` builds the `skopeo` argument vector by successive appends. -/

/-- The argument vector `pushImage` hands to `skopeo`. -/
def pushImageArgs (imageTag authToken : String) : List String :=
  let args := ["copy", "--dest-tls-verify=false"]
  let args := if authToken ≠ "" then args ++ ["--dest-creds", ":" ++ authToken] else args
  args ++ ["containers-storage:" ++ imageTag, "docker://" ++ imageTag]

/-! ## Archive extraction (`pkg/builder/builder.go`, `extractTarGz`)

The archive behind `src` and the filesystem's answers are modelled as
an oracle (`ExtractEnv`): whether `os.Open` and `gzip.NewReader`
succeed, the stream of tar headers, whether each `os.MkdirAll`,
`os.Create` and `io.Copy` call succeeds, and whether `tarReader.Next`
fails with a non-EOF error after the listed entries.  The function
returns the filesystem operations it performed plus an optional
error message. -/

/-- Tar header type flags distinguished by `extractTarGz`'s switch. -/
inductive TarType where
  | dir
  | reg
  | other
  deriving DecidableEq, Repr

/-- One tar entry together with the oracle outcomes of the filesystem
calls `extractTarGz` would issue for it. -/
structure TarEntry where
  name : String
  typeflag : TarType
  mkdirOk : Bool
  createOk : Bool
  copyOk : Bool
  deriving DecidableEq, Repr

/-- Oracle for one run of `extractTarGz`. -/
structure ExtractEnv where
  openOk : Bool
  gzipOk : Bool
  entries : List TarEntry
  tailReadErr : Bool
  deriving DecidableEq, Repr

/-- A filesystem operation performed during extraction. -/
inductive FSOp where
  | mkdirAll (path : String)
  | createFile (path : String)
  | writeFile (path : String)
  deriving DecidableEq, Repr

/-- The path an `FSOp` touches. -/
def FSOp.path : FSOp → String
  | .mkdirAll p => p
  | .createFile p => p
  | .writeFile p => p

/-- The entry-iteration loop of `extractTarGz`: for each header,
`target := filepath.Join(dest, hdr.Name)`; a directory entry is
`MkdirAll`ed, a regular entry is `Create`d and its content copied,
any other type flag falls through the switch. -/
def extractLoop (dest : String) : List TarEntry → Bool → List FSOp → List FSOp × Option String
  | [], tailErr, ops =>
    (ops.reverse, if tailErr then some "error reading tar.gz file" else none)
  | e :: rest, tailErr, ops =>
    let target := goJoin dest e.name
    match e.typeflag with
    | .dir =>
      if e.mkdirOk then extractLoop dest rest tailErr (.mkdirAll target :: ops)
      else (ops.reverse, some "failed to create directory")
    | .reg =>
      if e.createOk then
        if e.copyOk then extractLoop dest rest tailErr (.writeFile target :: .createFile target :: ops)
        else ((FSOp.createFile target :: ops).reverse, some "failed to write file")
      else (ops.reverse, some "failed to create file")
    | .other => extractLoop dest rest tailErr ops

/-- `extractTarGz(src, dest)`: the `src` archive and the filesystem are
summarized by `env`. -/
def extractTarGz (src dest : String) (env : ExtractEnv) : List FSOp × Option String :=
  if env.openOk then
    if env.gzipOk then extractLoop dest env.entries env.tailReadErr []
    else ([], some "failed to create gzip reader")
  else ([], some ("failed to open tar.gz file " ++ src))

/-- Whether processing a tar entry fails (the filesystem call the
switch issues for it errors out). -/
def entryFails (e : TarEntry) : Bool :=
  match e.typeflag with
  | .dir => !e.mkdirOk
  | .reg => !e.createOk || !e.copyOk
  | .other => false

/-- The operations a fully successful extraction performs for its
entries, in order. -/
def expectedOps (dest : String) : List TarEntry → List FSOp
  | [] => []
  | e :: rest =>
    match e.typeflag with
    | .dir => .mkdirAll (goJoin dest e.name) :: expectedOps dest rest
    | .reg => .createFile (goJoin dest e.name) :: .writeFile (goJoin dest e.name) :: expectedOps dest rest
    | .other => expectedOps dest rest

/-! ## Build pipeline (`pkg/builder/builder.go`, `BuildAndPushImage`)

The subprocess invocations (`podman build` via `buildImage`, `skopeo
copy` via `pushImage`) and the two `os.MkdirAll` calls are oracle
inputs.  The deferred cleanup (`os.RemoveAll(extractedDir)` and
`os.Remove(filePath)`) is registered only after both directories are
created; the result records whether it ran and what it removed. -/

/-- Oracle for one run of `BuildAndPushImage`. -/
structure BuildEnv where
  mkdirTmpOk : Bool
  mkdirExtractedOk : Bool
  extractEnv : ExtractEnv
  buildOk : Bool
  pushOk : Bool
  deriving DecidableEq, Repr

/-- Observable outcome of one `BuildAndPushImage` run. -/
structure BuildResult where
  cleanupRan : Bool
  removedPaths : List String
  imageTag : Option String
  buildAttempted : Bool
  pushAttempted : Bool
  pushArgs : Option (List String)
  succeeded : Bool
  deriving DecidableEq, Repr

/-- `BuildAndPushImage(cfg, filePath, imageName, authToken)`.
`tmpDir := filepath.Join(".", "tmp")`; `extractedDir :=
filepath.Join(tmpDir, "extracted")`; cleanup is deferred after both
`MkdirAll`s succeed, so every later return removes `extractedDir` and
`filePath`; on empty `imageName` the configured default is used and
`imageTag := fmt.Sprintf("%s/%s", cfg.ImageRegistry, imageName)`. -/
def BuildAndPushImage (cfg : Config) (filePath imageName authToken : String)
    (env : BuildEnv) : BuildResult :=
  let tmpDir := goJoin "." "tmp"
  if env.mkdirTmpOk then
    let extractedDir := goJoin tmpDir "extracted"
    if env.mkdirExtractedOk then
      let removed := [extractedDir, filePath]
      match (extractTarGz filePath extractedDir env.extractEnv).2 with
      | some _ =>
        { cleanupRan := true, removedPaths := removed, imageTag := none,
          buildAttempted := false, pushAttempted := false, pushArgs := none,
          succeeded := false }
      | none =>
        let imageName := if imageName = "" then cfg.ImageName else imageName
        let imageTag := cfg.ImageRegistry ++ "/" ++ imageName
        if env.buildOk then
          let args := pushImageArgs imageTag authToken
          if env.pushOk then
            { cleanupRan := true, removedPaths := removed, imageTag := some imageTag,
              buildAttempted := true, pushAttempted := true, pushArgs := some args,
              succeeded := true }
          else
            { cleanupRan := true, removedPaths := removed, imageTag := some imageTag,
              buildAttempted := true, pushAttempted := true, pushArgs := some args,
              succeeded := false }
        else
          { cleanupRan := true, removedPaths := removed, imageTag := some imageTag,
            buildAttempted := true, pushAttempted := false, pushArgs := none,
            succeeded := false }
    else
      { cleanupRan := false, removedPaths := [], imageTag := none,
        buildAttempted := false, pushAttempted := false, pushArgs := none,
        succeeded := false }
  else
    { cleanupRan := false, removedPaths := [], imageTag := none,
      buildAttempted := false, pushAttempted := false, pushArgs := none,
      succeeded := false }

/-! ## Authorization (`pkg/registry/registry.go`, `authenticateRequest`)

The Kubernetes client creation and the delegated permission check are
oracle inputs. -/

/-- Oracle for `authenticateRequest`'s delegated calls. -/
structure AuthEnv where
  clientOk : Bool
  allowed : Bool
  checkErr : Bool
  deriving DecidableEq, Repr

/-- `authenticateRequest(cfg, r)`: returns the bearer token on success
or an error message. -/
def authenticateRequest (requireAuth : Bool) (authHeader : String)
    (env : AuthEnv) : Except String String :=
  if requireAuth then
    let authToken := if hasPrefixStr "Bearer " authHeader then trimPrefixStr "Bearer " authHeader else ""
    if authToken = "" then .error "Missing bearer token"
    else if env.clientOk then
      if env.checkErr ∨ ¬env.allowed then .error "Insufficient permissions to list namespaces"
      else .ok authToken
    else .error "Failed to create Kubernetes client"
  else .ok ""

/-! ## Upload handler (`pkg/registry/registry.go`, `/upload` in `StartServer`)

One request's full lifecycle — the synchronous handler plus, when a
build is dispatched, the goroutine running `BuildAndPushImage` followed
by `resetBusy()` — modelled sequentially (`BuildAndPushImage` returns
on every path, so the goroutine always completes). -/

/-- HTTP responses the `/upload` handler can produce. -/
inductive HttpResp where
  | ok200
  | badRequest400
  | unauthorized401
  | methodNotAllowed405
  | serverError500
  | serviceUnavailable503
  deriving DecidableEq, Repr

/-- One inbound `/upload` request together with the oracle outcomes of
the calls made on its behalf. -/
structure UploadReq where
  method : String
  imageParam : String
  authHeader : String
  authEnv : AuthEnv
  formFileOk : Bool
  filename : String
  createOk : Bool
  copyOk : Bool
  buildEnv : BuildEnv
  deriving DecidableEq, Repr

/-- Observable outcome of one `/upload` request's full lifecycle. -/
structure UploadOutcome where
  response : HttpResp
  busyAfter : Bool
  acquired : Bool
  resets : Nat
  dispatched : Bool
  savedPath : Option String
  written : Bool
  buildResult : Option BuildResult
  deriving DecidableEq, Repr

/-- The `/upload` handler of `StartServer`, given the busy flag's value
at admission.  The order of steps follows the source: method check,
busy check-and-set under the lock, image-parameter defaulting,
`authenticateRequest`, `r.FormFile("file")`, `filepath.Join(cfg.UploadDir,
header.Filename)`, `os.Create`, `io.Copy` (error ignored), the `200`
response, then the goroutine running the build and `resetBusy()`. -/
def uploadRequest (cfg : Config) (busy : Bool) (req : UploadReq) : UploadOutcome :=
  if req.method ≠ "POST" then
    { response := .methodNotAllowed405, busyAfter := busy, acquired := false,
      resets := 0, dispatched := false, savedPath := none, written := false,
      buildResult := none }
  else if busy then
    { response := .serviceUnavailable503, busyAfter := busy, acquired := false,
      resets := 0, dispatched := false, savedPath := none, written := false,
      buildResult := none }
  else
    let imageName := if req.imageParam = "" then cfg.ImageName else req.imageParam
    match authenticateRequest cfg.RequireAuth req.authHeader req.authEnv with
    | .error _ =>
      { response := .unauthorized401, busyAfter := false, acquired := true,
        resets := 1, dispatched := false, savedPath := none, written := false,
        buildResult := none }
    | .ok authToken =>
      if req.formFileOk then
        let filePath := goJoin cfg.UploadDir req.filename
        if req.createOk then
          let br := BuildAndPushImage cfg filePath imageName authToken req.buildEnv
          { response := .ok200, busyAfter := false, acquired := true,
            resets := 1, dispatched := true, savedPath := some filePath,
            written := req.copyOk, buildResult := some br }
        else
          { response := .serverError500, busyAfter := false, acquired := true,
            resets := 1, dispatched := false, savedPath := none, written := false,
            buildResult := none }
      else
        { response := .badRequest400, busyAfter := false, acquired := true,
          resets := 1, dispatched := false, savedPath := none, written := false,
          buildResult := none }

/-! ## Busy-flag trace semantics

The only shared mutable state is `isBusy` under `buildLock`.  Each
atomic region of the source is one event: a request hitting the
admission check (`arrive` — rejected when busy, otherwise sets the
flag), the handler aborting before dispatch via `resetBusy()`
(`abort`), the `go` statement starting `BuildAndPushImage`
(`dispatch`), and the goroutine finishing and calling `resetBusy()`
(`finish`).  `pre` counts handlers holding the slot before dispatch,
`running` counts `BuildAndPushImage` invocations in flight. -/

/-- Shared state of the admission control. -/
structure SlotState where
  busy : Bool
  pre : Nat
  running : Nat
  deriving DecidableEq, Repr

/-- Atomic events touching the busy flag. -/
inductive SlotEv where
  | arrive
  | abort
  | dispatch
  | finish
  deriving DecidableEq, Repr

/-- One atomic step.  Events whose precondition does not hold (no
holder to abort, nothing running to finish) leave the state unchanged:
the source has no actor able to perform them then. -/
def slotStep (s : SlotState) : SlotEv → SlotState
  | .arrive => if s.busy then s else { busy := true, pre := s.pre + 1, running := s.running }
  | .abort => if s.pre > 0 then { busy := false, pre := s.pre - 1, running := s.running } else s
  | .dispatch => if s.pre > 0 then { busy := s.busy, pre := s.pre - 1, running := s.running + 1 } else s
  | .finish => if s.running > 0 then { busy := false, pre := s.pre, running := s.running - 1 } else s

/-- Initial state: flag clear, nothing in flight. -/
def slotInit : SlotState := { busy := false, pre := 0, running := 0 }

/-- Run a finite event trace from the initial state. -/
def runSlot (es : List SlotEv) : SlotState :=
  es.foldl slotStep slotInit

/-- The single-flight invariant: at most one handler-or-build holds the
slot, and a clear flag means nothing holds it. -/
def slotInv (s : SlotState) : Prop :=
  s.pre + s.running ≤ 1 ∧ (s.busy = false → s.pre + s.running = 0)

/-! ## Concrete sample inputs used by witnesses and counterexamples -/

/-- The default configuration of `LoadConfig` with no environment
overrides. -/
def cfg0 : Config :=
  { ImageName := "vddk", CAPublicKey := "/etc/tls/server.crt",
    PrivateKey := "/etc/tls/server.key", ServerPort := "8443",
    UploadDir := "/tmp/uploads",
    ImageRegistry := "image-registry.openshift-image-registry.svc:5000",
    RequireAuth := false }

/-- `cfg0` with authorization enforcement enabled. -/
def cfgAuth : Config := { cfg0 with RequireAuth := true }

/-- A small archive: one directory and one regular file, all
filesystem calls succeeding. -/
def env0 : ExtractEnv :=
  { openOk := true, gzipOk := true,
    entries :=
      [ { name := "ctx", typeflag := .dir, mkdirOk := true, createOk := true, copyOk := true },
        { name := "ctx/Containerfile.vddk", typeflag := .reg, mkdirOk := true, createOk := true, copyOk := true } ],
    tailReadErr := false }

/-- A build oracle where every external call succeeds. -/
def bEnv0 : BuildEnv :=
  { mkdirTmpOk := true, mkdirExtractedOk := true, extractEnv := env0,
    buildOk := true, pushOk := true }

/-- A well-formed upload request whose every delegated call succeeds. -/
def req0 : UploadReq :=
  { method := "POST", imageParam := "", authHeader := "",
    authEnv := { clientOk := true, allowed := true, checkErr := false },
    formFileOk := true, filename := "ctx.tar.gz", createOk := true,
    copyOk := true, buildEnv := bEnv0 }

/-! ## Helper lemmas -/

/-- The slot invariant holds initially. -/
theorem slotInv_init : slotInv slotInit := by
  constructor <;> simp [slotInit]

/-- One atomic step preserves the slot invariant. -/
theorem slotInv_step (s : SlotState) (e : SlotEv) (h : slotInv s) :
    slotInv (slotStep s e) := by
  obtain ⟨h1, h2⟩ := h
  cases e
  case arrive =>
    by_cases hb : s.busy
    · simpa [slotStep, hb] using ⟨h1, h2⟩
    · have h0 : s.pre + s.running = 0 := h2 (by simpa using hb)
      simp only [slotStep, hb, if_false, Bool.false_eq_true]
      exact ⟨show s.pre + 1 + s.running ≤ 1 by omega, fun hc => by simp at hc⟩
  case abort =>
    by_cases hp : s.pre > 0
    · simp only [slotStep, hp, if_true]
      exact ⟨show s.pre - 1 + s.running ≤ 1 by omega,
        fun _ => show s.pre - 1 + s.running = 0 by omega⟩
    · simpa [slotStep, hp] using ⟨h1, h2⟩
  case dispatch =>
    by_cases hp : s.pre > 0
    · simp only [slotStep, hp, if_true]
      refine ⟨show s.pre - 1 + (s.running + 1) ≤ 1 by omega, fun hb => ?_⟩
      have := h2 hb
      show s.pre - 1 + (s.running + 1) = 0
      omega
    · simpa [slotStep, hp] using ⟨h1, h2⟩
  case finish =>
    by_cases hr : s.running > 0
    · simp only [slotStep, hr, if_true]
      exact ⟨show s.pre + (s.running - 1) ≤ 1 by omega,
        fun _ => show s.pre + (s.running - 1) = 0 by omega⟩
    · simpa [slotStep, hr] using ⟨h1, h2⟩

/-- The slot invariant is preserved along any event trace. -/
theorem slotInv_foldl (es : List SlotEv) (s : SlotState) (h : slotInv s) :
    slotInv (es.foldl slotStep s) := by
  induction es generalizing s with
  | nil => exact h
  | cons e rest ih => exact ih (slotStep s e) (slotInv_step s e h)

/-! ## Claims -/

/-- C1: along every trace of concurrent upload attempts at most one
`BuildAndPushImage` invocation (together with its admitting handler) is
mid-pipeline at any instant, and while the busy flag is set every
further POST `/upload` request is rejected with 503 in the admission
path — it acquires nothing, dispatches nothing, saves no file and runs
no build. -/
theorem upload_single_flight :
    (∀ es : List SlotEv,
      (runSlot es).pre + (runSlot es).running ≤ 1 ∧
      ((runSlot es).busy = false → (runSlot es).pre + (runSlot es).running = 0)) ∧
    (∀ (cfg : Config) (req : UploadReq), req.method = "POST" →
      (uploadRequest cfg true req).response = .serviceUnavailable503 ∧
      (uploadRequest cfg true req).acquired = false ∧
      (uploadRequest cfg true req).dispatched = false ∧
      (uploadRequest cfg true req).savedPath = none ∧
      (uploadRequest cfg true req).buildResult = none) := by
  constructor
  · intro es
    exact slotInv_foldl es slotInit slotInv_init
  · intro cfg req h
    simp [uploadRequest, h]

/-- C1 witness: a trace of two competing arrivals keeps a single
holder, and a concrete POST request against a busy slot is rejected
with 503 without acquiring or dispatching. -/
theorem upload_single_flight_witness :
    ((runSlot [SlotEv.arrive, SlotEv.arrive]).pre +
      (runSlot [SlotEv.arrive, SlotEv.arrive]).running ≤ 1) ∧
    (uploadRequest cfg0 true req0).response = .serviceUnavailable503 ∧
    (uploadRequest cfg0 true req0).acquired = false :=
  ⟨(upload_single_flight.1 [SlotEv.arrive, SlotEv.arrive]).1,
   (upload_single_flight.2 cfg0 req0 rfl).1,
   (upload_single_flight.2 cfg0 req0 rfl).2.1⟩

/-- C2: over any request's full lifecycle the busy flag is cleared
exactly once per successful acquisition (`resets` equals one exactly
when the slot was acquired, on every exit path — 401, 400, 500 and
the dispatched build), and afterwards the flag is clear again whenever
it was acquired, so the slot is immediately acquirable. -/
theorem busy_release_balanced :
    ∀ (cfg : Config) (busy : Bool) (req : UploadReq),
      (uploadRequest cfg busy req).resets =
        (if (uploadRequest cfg busy req).acquired then 1 else 0) ∧
      (uploadRequest cfg busy req).busyAfter =
        (if (uploadRequest cfg busy req).acquired then false else busy) := by
  intro cfg busy req
  unfold uploadRequest
  repeat' split
  all_goals simp_all

/-- C3 counterexample: with enforcement enabled and no credential, a
POST against an idle slot is denied 401 yet acquires the busy flag
first (`acquired = true`), and the same denied caller against a busy
slot receives 503 — observing busy state — rather than 401.  The code
checks and sets the busy flag before `authenticateRequest` runs. -/
theorem auth_order_counterexample :
    (uploadRequest cfgAuth false req0).response = .unauthorized401 ∧
    (uploadRequest cfgAuth false req0).acquired = true ∧
    (uploadRequest cfgAuth true req0).response = .serviceUnavailable503 := by
  refine ⟨by decide, by decide, by decide⟩

/-- C3 (amended): on every POST `/upload` request the busy flag is read
and set before the authorization check: a caller denied authorization
against an idle slot still acquires the slot transiently (released
exactly once before the 401 is returned), and against a busy slot every
caller — authorized or not — receives 503. -/
theorem auth_checked_after_slot :
    ∀ (cfg : Config) (req : UploadReq) (e : String), req.method = "POST" →
      authenticateRequest cfg.RequireAuth req.authHeader req.authEnv = .error e →
      (uploadRequest cfg false req).response = .unauthorized401 ∧
      (uploadRequest cfg false req).acquired = true ∧
      (uploadRequest cfg false req).resets = 1 ∧
      (uploadRequest cfg false req).busyAfter = false ∧
      (uploadRequest cfg true req).response = .serviceUnavailable503 := by
  intro cfg req e hm ha
  unfold uploadRequest
  simp [hm, ha]

/-- C3 witness: the amended ordering fact at a concrete denied
request. -/
theorem auth_checked_after_slot_witness :
    (uploadRequest cfgAuth false req0).acquired = true ∧
    (uploadRequest cfgAuth false req0).resets = 1 :=
  ⟨(auth_checked_after_slot cfgAuth req0 "Missing bearer token" rfl (by rfl)).2.1,
   (auth_checked_after_slot cfgAuth req0 "Missing bearer token" rfl (by rfl)).2.2.1⟩

/-- A build oracle whose very first step — creating the `tmp`
directory — fails. -/
def bEnvNoTmp : BuildEnv := { bEnv0 with mkdirTmpOk := false }

/-- A build oracle whose extraction fails (corrupt gzip data) but
whose directory creation succeeds. -/
def bEnvBadGzip : BuildEnv :=
  { bEnv0 with extractEnv := { env0 with gzipOk := false } }

/-- C4 counterexample: a pipeline run that enters the Staging state but
fails to create the `tmp` directory returns before the cleanup is
deferred: nothing is removed — in particular the uploaded archive file
survives the pipeline. -/
theorem cleanup_counterexample :
    (BuildAndPushImage cfg0 "/tmp/uploads/ctx.tar.gz" "vddk" "" bEnvNoTmp).cleanupRan = false ∧
    (BuildAndPushImage cfg0 "/tmp/uploads/ctx.tar.gz" "vddk" "" bEnvNoTmp).removedPaths = [] := by
  refine ⟨by decide, by decide⟩

/-- C4 (amended): for every pipeline run in which both staging
directories are successfully created, the cleanup step runs before the
pipeline ends and removes exactly the extraction directory tree and
the originally uploaded archive file, regardless of whether
extraction, build, or push failed. -/
theorem cleanup_after_staging :
    ∀ (cfg : Config) (filePath imageName authToken : String) (env : BuildEnv),
      env.mkdirTmpOk = true → env.mkdirExtractedOk = true →
      (BuildAndPushImage cfg filePath imageName authToken env).cleanupRan = true ∧
      (BuildAndPushImage cfg filePath imageName authToken env).removedPaths =
        [goJoin (goJoin "." "tmp") "extracted", filePath] := by
  intro cfg filePath imageName authToken env h1 h2
  unfold BuildAndPushImage
  simp only [h1, if_true]
  simp only [h2, if_true]
  repeat' split
  all_goals simp_all

/-- C4 witness: concrete run with corrupt-gzip extraction failure —
cleanup still runs and removes `tmp/extracted` and the archive. -/
theorem cleanup_after_staging_witness :
    (BuildAndPushImage cfg0 "/tmp/uploads/ctx.tar.gz" "vddk" "" bEnvBadGzip).cleanupRan = true ∧
    (BuildAndPushImage cfg0 "/tmp/uploads/ctx.tar.gz" "vddk" "" bEnvBadGzip).removedPaths =
      ["tmp/extracted", "/tmp/uploads/ctx.tar.gz"] :=
  ⟨(cleanup_after_staging cfg0 "/tmp/uploads/ctx.tar.gz" "vddk" "" bEnvBadGzip rfl rfl).1,
   ((cleanup_after_staging cfg0 "/tmp/uploads/ctx.tar.gz" "vddk" "" bEnvBadGzip rfl rfl).2).trans
     (by decide)⟩

/-- Go `strings.HasSuffix` (used only in statements). -/
def hasSuffixStr (suf s : String) : Bool :=
  suf.toList.isSuffixOf s.toList

/-- C5 counterexample: the probe's URL for image `foo:v2` embeds the
name verbatim and still ends in `/manifests/latest`; it differs from
the URL the spec's colon-splitting rule would build. -/
theorem probe_tag_counterexample :
    checkImageManifestURL "foo:v2" "registry.local:5000" =
      "https://registry.local:5000/v2/foo:v2/manifests/latest" ∧
    specProbeManifestURL "foo:v2" "registry.local:5000" =
      "https://registry.local:5000/v2/foo/manifests/v2" ∧
    checkImageManifestURL "foo:v2" "registry.local:5000" ≠
      specProbeManifestURL "foo:v2" "registry.local:5000" := by
  refine ⟨by decide, by decide, by decide⟩

/-- C5 (amended): the probe's manifest URL always uses tag `latest`,
with the full image name — including any `:tag` suffix — embedded
verbatim in the repository position: probing `foo` queries
`.../v2/foo/manifests/latest` and probing `foo:v2` queries
`.../v2/foo:v2/manifests/latest`. -/
theorem probe_always_latest :
    (∀ imageName registryURL : String,
      hasSuffixStr "/manifests/latest" (checkImageManifestURL imageName registryURL) = true) ∧
    checkImageManifestURL "foo" "r" = "https://r/v2/foo/manifests/latest" ∧
    checkImageManifestURL "foo:v2" "r" = "https://r/v2/foo:v2/manifests/latest" := by
  refine ⟨fun imageName registryURL => ?_, by decide, by decide⟩
  simp [hasSuffixStr, checkImageManifestURL, String.toList, String.data_append,
    List.isSuffixOf]

/-- `req0` with the `io.Copy` of the uploaded file failing. -/
def reqCopyFail : UploadReq := { req0 with copyOk := false }

/-- `req0` with `os.Create` of the staged file failing. -/
def reqNoCreate : UploadReq := { req0 with createOk := false }

/-- C6 counterexample: the handler ignores `io.Copy`'s error — a
request whose staged-file write fails mid-copy is still answered 200
and the build is still dispatched, so the 200 does not mean the file
was durably written. -/
theorem copy_error_ignored_counterexample :
    (uploadRequest cfg0 false reqCopyFail).response = .ok200 ∧
    (uploadRequest cfg0 false reqCopyFail).written = false ∧
    (uploadRequest cfg0 false reqCopyFail).dispatched = true := by
  refine ⟨by decide, by decide, by decide⟩

/-- C6 (amended): for every request passing admission the handler
responds 500 exactly when the staged file cannot be created (and then
dispatches nothing); once creation succeeds it responds 200 and
dispatches the build even if the copy failed, and the response never
depends on the build's own outcome. -/
theorem upload_response_contract :
    ∀ (cfg : Config) (req : UploadReq) (tok : String), req.method = "POST" →
      authenticateRequest cfg.RequireAuth req.authHeader req.authEnv = .ok tok →
      req.formFileOk = true →
      (req.createOk = false →
        (uploadRequest cfg false req).response = .serverError500 ∧
        (uploadRequest cfg false req).dispatched = false) ∧
      (req.createOk = true →
        (uploadRequest cfg false req).response = .ok200 ∧
        (uploadRequest cfg false req).dispatched = true ∧
        (uploadRequest cfg false req).written = req.copyOk) ∧
      (∀ env : BuildEnv,
        (uploadRequest cfg false { req with buildEnv := env }).response =
          (uploadRequest cfg false req).response) := by
  intro cfg req tok hm ha hf
  refine ⟨fun hc => ?_, fun hc => ?_, fun env => ?_⟩
  · unfold uploadRequest
    simp [hm, ha, hf, hc]
  · unfold uploadRequest
    simp [hm, ha, hf, hc]
  · unfold uploadRequest
    simp only [hm]
    simp [ha, hf]
    by_cases hc : req.createOk <;> simp [hc]

/-- C6 witness: a failed create answers 500; a clean request answers
200. -/
theorem upload_response_contract_witness :
    (uploadRequest cfg0 false reqNoCreate).response = .serverError500 ∧
    (uploadRequest cfg0 false req0).response = .ok200 :=
  ⟨((upload_response_contract cfg0 reqNoCreate "" rfl rfl rfl).1 rfl).1,
   ((upload_response_contract cfg0 req0 "" rfl rfl rfl).2.1 rfl).1⟩

/-- `req0` with the caller supplying `image=vddk-7`. -/
def reqOverride : UploadReq := { req0 with imageParam := "vddk-7" }

/-- C7: for every admitted build the target tag is
`{registryHost}/{effectiveImageName}`, with the effective name being
the caller's `image` query parameter when non-empty and the configured
default otherwise. -/
theorem image_tag_composition :
    ∀ (cfg : Config) (req : UploadReq) (tok : String), req.method = "POST" →
      authenticateRequest cfg.RequireAuth req.authHeader req.authEnv = .ok tok →
      req.formFileOk = true → req.createOk = true →
      req.buildEnv.mkdirTmpOk = true → req.buildEnv.mkdirExtractedOk = true →
      (extractTarGz (goJoin cfg.UploadDir req.filename)
        (goJoin (goJoin "." "tmp") "extracted") req.buildEnv.extractEnv).2 = none →
      ∃ br : BuildResult, (uploadRequest cfg false req).buildResult = some br ∧
        br.imageTag = some (cfg.ImageRegistry ++ "/" ++
          (if req.imageParam = "" then cfg.ImageName else req.imageParam)) := by
  intro cfg req tok hm ha hf hc h1 h2 hx
  have hb : (uploadRequest cfg false req).buildResult =
      some (BuildAndPushImage cfg (goJoin cfg.UploadDir req.filename)
        (if req.imageParam = "" then cfg.ImageName else req.imageParam) tok req.buildEnv) := by
    unfold uploadRequest
    simp [hm, ha, hf, hc]
  refine ⟨_, hb, ?_⟩
  unfold BuildAndPushImage
  simp only [h1, if_true, h2, hx]
  by_cases hp : req.imageParam = "" <;>
    repeat' split
  all_goals simp_all

/-- C7 witness: uploading with `image=vddk-7` under the default
configuration produces tag
`image-registry.openshift-image-registry.svc:5000/vddk-7`. -/
theorem image_tag_composition_witness :
    ∃ br : BuildResult, (uploadRequest cfg0 false reqOverride).buildResult = some br ∧
      br.imageTag = some "image-registry.openshift-image-registry.svc:5000/vddk-7" := by
  obtain ⟨br, h1, h2⟩ :=
    image_tag_composition cfg0 reqOverride "" rfl rfl rfl rfl rfl rfl (by decide)
  exact ⟨br, h1, h2.trans (by decide)⟩

/-- C8: every push invocation disables TLS verification toward the
destination; with a bearer credential present the destination
credentials are an empty username and the token as password
(`--dest-creds :token`), and with no credential no `--dest-creds`
arguments are passed. -/
theorem push_credentials :
    ∀ (imageTag authToken : String),
      ("--dest-tls-verify=false" ∈ pushImageArgs imageTag authToken) ∧
      (authToken ≠ "" →
        pushImageArgs imageTag authToken =
          ["copy", "--dest-tls-verify=false", "--dest-creds", ":" ++ authToken,
           "containers-storage:" ++ imageTag, "docker://" ++ imageTag]) ∧
      (authToken = "" →
        pushImageArgs imageTag authToken =
          ["copy", "--dest-tls-verify=false",
           "containers-storage:" ++ imageTag, "docker://" ++ imageTag]) := by
  intro imageTag authToken
  refine ⟨?_, fun h => ?_, fun h => ?_⟩
  · unfold pushImageArgs
    split <;> simp
  · simp [pushImageArgs, h]
  · simp [pushImageArgs, h]

/-- C8 witness: concrete argument vectors with and without a token. -/
theorem push_credentials_witness :
    pushImageArgs "r/vddk" "tok" =
      ["copy", "--dest-tls-verify=false", "--dest-creds", ":tok",
       "containers-storage:r/vddk", "docker://r/vddk"] ∧
    pushImageArgs "r/vddk" "" =
      ["copy", "--dest-tls-verify=false",
       "containers-storage:r/vddk", "docker://r/vddk"] :=
  ⟨((push_credentials "r/vddk" "tok").2.1 (by decide)).trans (by decide),
   (push_credentials "r/vddk" "").2.2 rfl⟩

/-- When every entry's filesystem calls succeed and the tail read does
not error, the loop appends exactly the expected operations and
reports no error. -/
theorem extractLoop_success (dest : String) (entries : List TarEntry) (ops : List FSOp)
    (h : ∀ e ∈ entries, entryFails e = false) :
    extractLoop dest entries false ops = (ops.reverse ++ expectedOps dest entries, none) := by
  induction entries generalizing ops with
  | nil => simp [extractLoop, expectedOps]
  | cons e rest ih =>
    have he : entryFails e = false := h e (List.mem_cons_self _ _)
    have hrest : ∀ e' ∈ rest, entryFails e' = false :=
      fun e' h' => h e' (List.mem_cons_of_mem _ h')
    cases ht : e.typeflag
    case dir =>
      have hm : e.mkdirOk = true := by simpa [entryFails, ht] using he
      simp [extractLoop, ht, hm, ih _ hrest, expectedOps]
    case reg =>
      have hm : e.createOk = true ∧ e.copyOk = true := by
        simpa [entryFails, ht] using he
      simp [extractLoop, ht, hm.1, hm.2, ih _ hrest, expectedOps]
    case other =>
      simp [extractLoop, ht, ih _ hrest, expectedOps]

/-- The loop reports an error exactly when the tail read errors or
some entry's filesystem call fails. -/
theorem extractLoop_err_iff (dest : String) (entries : List TarEntry) (tailErr : Bool)
    (ops : List FSOp) :
    (extractLoop dest entries tailErr ops).2.isSome = true ↔
      (tailErr = true ∨ ∃ e ∈ entries, entryFails e = true) := by
  induction entries generalizing ops with
  | nil => cases tailErr <;> simp [extractLoop]
  | cons e rest ih =>
    cases ht : e.typeflag
    case dir =>
      by_cases hm : e.mkdirOk
      · simp [extractLoop, ht, hm, ih, entryFails]
      · simp [extractLoop, ht, hm, entryFails]
    case reg =>
      by_cases hc : e.createOk
      · by_cases hw : e.copyOk
        · simp [extractLoop, ht, hc, hw, ih, entryFails]
        · simp [extractLoop, ht, hc, hw, entryFails]
      · simp [extractLoop, ht, hc, entryFails]
    case other =>
      simp [extractLoop, ht, ih, entryFails]

/-- Every operation the loop performs either was already accumulated
or targets the join of the destination with some entry's stored
name. -/
theorem extractLoop_targets (dest : String) (entries : List TarEntry) (tailErr : Bool)
    (ops : List FSOp) :
    ∀ op ∈ (extractLoop dest entries tailErr ops).1,
      op ∈ ops ∨ ∃ e ∈ entries, op.path = goJoin dest e.name := by
  induction entries generalizing ops with
  | nil =>
    intro op hop
    simp only [extractLoop] at hop
    exact Or.inl (List.mem_reverse.mp hop)
  | cons e rest ih =>
    intro op hop
    cases ht : e.typeflag
    case dir =>
      by_cases hm : e.mkdirOk
      · simp only [extractLoop, ht, hm, if_true] at hop
        rcases ih (FSOp.mkdirAll (goJoin dest e.name) :: ops) op hop with hin | ⟨e', he', hp⟩
        · rcases List.mem_cons.mp hin with heq | hin'
          · exact Or.inr ⟨e, (List.mem_cons_self _ _), by simp [heq, FSOp.path]⟩
          · exact Or.inl hin'
        · exact Or.inr ⟨e', List.mem_cons_of_mem _ he', hp⟩
      · simp only [extractLoop, ht, hm, if_false, Bool.false_eq_true] at hop
        exact Or.inl (List.mem_reverse.mp hop)
    case reg =>
      by_cases hc : e.createOk
      · by_cases hw : e.copyOk
        · simp only [extractLoop, ht, hc, hw, if_true] at hop
          rcases ih (FSOp.writeFile (goJoin dest e.name) ::
              FSOp.createFile (goJoin dest e.name) :: ops) op hop with hin | ⟨e', he', hp⟩
          · rcases List.mem_cons.mp hin with heq | hin'
            · exact Or.inr ⟨e, (List.mem_cons_self _ _), by simp [heq, FSOp.path]⟩
            · rcases List.mem_cons.mp hin' with heq' | hin''
              · exact Or.inr ⟨e, (List.mem_cons_self _ _), by simp [heq', FSOp.path]⟩
              · exact Or.inl hin''
          · exact Or.inr ⟨e', List.mem_cons_of_mem _ he', hp⟩
        · simp only [extractLoop, ht, hc, hw, if_true, if_false, Bool.false_eq_true] at hop
          rcases List.mem_cons.mp (List.mem_reverse.mp hop) with heq | hin'
          · exact Or.inr ⟨e, (List.mem_cons_self _ _), by simp [heq, FSOp.path]⟩
          · exact Or.inl hin'
      · simp only [extractLoop, ht, hc, if_false, Bool.false_eq_true] at hop
        exact Or.inl (List.mem_reverse.mp hop)
    case other =>
      simp only [extractLoop, ht] at hop
      rcases ih ops op hop with hin | ⟨e', he', hp⟩
      · exact Or.inl hin
      · exact Or.inr ⟨e', List.mem_cons_of_mem _ he', hp⟩

/-- C9: `extractTarGz(archivePath, destDir)` creates each directory
entry (with intermediates) and each regular-file entry (content
copied) under `destDir`, silently skips every other entry type, joins
every extracted path as `destDir` joined with the entry's stored name
(so `..` segments in a name can land outside `destDir`), and fails
exactly when the source cannot be opened, the data is not valid
compressed tar, or an entry cannot be created or written. -/
theorem extract_contract :
    ∀ (src dest : String) (env : ExtractEnv),
      (env.openOk = true → env.gzipOk = true → env.tailReadErr = false →
        (∀ e ∈ env.entries, entryFails e = false) →
        extractTarGz src dest env = (expectedOps dest env.entries, none)) ∧
      ((extractTarGz src dest env).2.isSome = true ↔
        (env.openOk = false ∨ env.gzipOk = false ∨ env.tailReadErr = true ∨
          ∃ e ∈ env.entries, entryFails e = true)) ∧
      (∀ op ∈ (extractTarGz src dest env).1,
        ∃ e ∈ env.entries, op.path = goJoin dest e.name) ∧
      goJoin "/work/extracted" "../../etc/passwd" = "/etc/passwd" ∧
      isUnder "/work/extracted" (goJoin "/work/extracted" "../../etc/passwd") = false := by
  intro src dest env
  refine ⟨fun ho hg ht hfail => ?_, ?_, fun op hop => ?_, by decide, by decide⟩
  · unfold extractTarGz
    simp only [ho, hg, ht, if_true]
    simpa using extractLoop_success dest env.entries [] hfail
  · unfold extractTarGz
    cases ho : env.openOk
    · simp
    · cases hg : env.gzipOk
      · simp
      · simpa using extractLoop_err_iff dest env.entries env.tailReadErr []
  · unfold extractTarGz at hop
    rcases hho : env.openOk with _ | _ <;> rw [hho] at hop
    · simp at hop
    · rcases hhg : env.gzipOk with _ | _ <;> rw [hhg] at hop
      · simp at hop
      · simp only [if_true] at hop
        rcases extractLoop_targets dest env.entries env.tailReadErr [] op hop with hin | h
        · simp at hin
        · exact h

/-- C9 witness: the sample archive extracts to exactly its directory
and its file (created then written) under the staging directory, with
no error. -/
theorem extract_contract_witness :
    extractTarGz "/tmp/uploads/ctx.tar.gz" "tmp/extracted" env0 =
      ([FSOp.mkdirAll "tmp/extracted/ctx",
        FSOp.createFile "tmp/extracted/ctx/Containerfile.vddk",
        FSOp.writeFile "tmp/extracted/ctx/Containerfile.vddk"], none) := by
  have h := (extract_contract "/tmp/uploads/ctx.tar.gz" "tmp/extracted" env0).1
    rfl rfl rfl (by decide)
  exact h.trans (by decide)

/-- `req0` with a path-traversal multipart filename. -/
def reqEvil : UploadReq := { req0 with filename := "../../etc/passwd" }

/-- C10: every admitted upload is stored at the join of the configured
upload directory with the client-supplied multipart filename, with no
sanitization — and a filename with parent-directory segments resolves
outside the upload directory. -/
theorem upload_stored_path :
    ∀ (cfg : Config) (req : UploadReq) (tok : String), req.method = "POST" →
      authenticateRequest cfg.RequireAuth req.authHeader req.authEnv = .ok tok →
      req.formFileOk = true → req.createOk = true →
      (uploadRequest cfg false req).savedPath = some (goJoin cfg.UploadDir req.filename) ∧
      goJoin "/tmp/uploads" "../../etc/passwd" = "/etc/passwd" ∧
      isUnder "/tmp/uploads" (goJoin "/tmp/uploads" "../../etc/passwd") = false := by
  intro cfg req tok hm ha hf hc
  refine ⟨?_, by decide, by decide⟩
  unfold uploadRequest
  simp [hm, ha, hf, hc]

/-- C10 witness: uploading with multipart filename `../../etc/passwd`
under the default upload directory stores the file at `/etc/passwd`. -/
theorem upload_stored_path_witness :
    (uploadRequest cfg0 false reqEvil).savedPath = some "/etc/passwd" := by
  have h := (upload_stored_path cfg0 reqEvil "" rfl rfl rfl rfl).1
  exact h.trans (by decide)

end VddkBuilder
